import Mathlib

/-!
Verification of the lgrep search client (cmd/lgrep/main.go and the lgrep
package files concatenated in the repository source).

The source consists of three Go documents: the CLI driver, an earlier
direct-execution version of the lgrep package (SimpleSearch and
SearchWithSource returning raw source documents), and the later streaming
version (SimpleSearchStream, SearchWithSourceStream, SimpleSearch,
SearchWithSource, extractResult).  The embedding below translates the
query-specification, execution and result-extraction layer.  External
collaborators (the elastic client, the JSON decoder, the engine-side
validate and execute calls) are modelled as an explicit environment, and
network interaction is made observable as a trace of issued requests.
-/

namespace Lgrep

/-- Sort direction for the timestamp sort.  The source stores this as a
`*bool` (`SortTime *bool`); per the design notes the tri-state pointer
stands for the enum unset / ascending / descending, which we embed as
`Option SortDir`. -/
inductive SortDir
  | asc
  | desc
deriving DecidableEq, Repr

/-- Modelled from the spec: `SortDesc` (defined outside src/) is the
descending sort direction value placed in `DefaultSpec`. -/
def SortDesc : Option SortDir := some SortDir.desc

/-- Modelled from the spec: `QueryMap` (query.go, outside src/) is the
normalized internal query-document representation, a JSON object.  Its
internal structure is irrelevant to the claims; we keep an opaque list of
entries. -/
structure QueryMap where
  entries : List (String × String)
deriving DecidableEq, Repr

/-- The Go zero value of `QueryMap` (a nil map), which is what
`QueryMapFromJSON` leaves in its result when unmarshalling fails. -/
def QueryMap.zero : QueryMap := ⟨[]⟩

/-- A query document handed to the engine: either the query-string
(lucene) expression built by `SearchWithLucene`, or a raw `QueryMap`. -/
inductive Query
  | lucene (q : String)
  | queryMap (m : QueryMap)
deriving DecidableEq, Repr

/-- SearchOptions, lines 292-304 of the source for the fields
Size / Index / Indices / SortTime / QueryDebug; the streaming version of
the package additionally reads `Fields`, `RawResult` and
`QuerySkipValidate` (their declaration is outside src/, modelled from the
spec data model). Go zero values are the defaults. -/
structure SearchOptions where
  Size : Int := 0
  Index : String := ""
  Indices : List String := []
  SortTime : Option SortDir := none
  Fields : List String := []
  RawResult : Bool := false
  QueryDebug : Bool := false
  QuerySkipValidate : Bool := false
deriving DecidableEq, Repr

/-- DefaultSpec, line 437: `SearchOptions{Size: 100, SortTime: SortDesc}`. -/
def DefaultSpec : SearchOptions := { Size := 100, SortTime := SortDesc }

/-- One setting recorded on a request builder.  `search.Index` is variadic
in Go, so both the single-index and the index-list call record a list;
`SortByTimestamp` (outside src/) records the sort direction. -/
inductive SearchOp
  | size (n : Int)
  | index (idxs : List String)
  | sortTime (dir : SortDir)
deriving DecidableEq, Repr

/-- The request builder (`*elastic.SearchService`, an external
collaborator).  We record the ordered trace of applied settings and the
query document installed on the search source. -/
structure SearchService where
  ops : List SearchOp := []
  query : Option Query := none
deriving DecidableEq, Repr

/-- NewSearch, lines 596-601: a fresh search bound to a fresh source. -/
def NewSearch : SearchService := ⟨[], none⟩

/-- Modelled from the spec: `SearchWithLucene` (outside src/) wraps the
free-text string as a query-string expression on the search source,
never substituting a default expression. -/
def SearchWithLucene (search : SearchService) (q : String) : SearchService :=
  { search with query := some (Query.lucene q) }

/-- SearchOptions.apply, lines 306-321: size if `Size != 0`, then the
single index if `Index != ""`, then the index list if non-empty, then the
timestamp sort if `SortTime != nil`.  `apply` itself returns no error. -/
def SearchOptions.apply (s : SearchOptions) (search : SearchService) : SearchService :=
  let search :=
    if s.Size ≠ 0 then { search with ops := search.ops ++ [SearchOp.size s.Size] } else search
  let search :=
    if s.Index ≠ "" then { search with ops := search.ops ++ [SearchOp.index [s.Index]] } else search
  let search :=
    if s.Indices.length ≠ 0 then { search with ops := search.ops ++ [SearchOp.index s.Indices] }
    else search
  match s.SortTime with
  | some d => { search with ops := search.ops ++ [SearchOp.sortTime d] }
  | none => search

/-- Modelled from the spec: `configureSearch` (called at lines 472 and 512,
declared outside src/) applies the options to the request builder with the
same contract as `apply` (spec section 4.1). -/
def SearchOptions.configureSearch (s : SearchOptions) (search : SearchService) : SearchService :=
  s.apply search

/-- A hit returned by the engine (`elastic.SearchHit`, external): the
field projection (`Fields`) and the source document (`Source`, a
`*json.RawMessage`, hence optional).  The whole structure is the hit
envelope. -/
structure SearchHit where
  Fields : List (String × String) := []
  Source : Option String := none
deriving DecidableEq, Repr

/-- Modelled from the spec: the caller-facing Result variants (results.go,
outside src/) — `HitResult` wraps the entire hit envelope, `FieldResult`
the field projection, `SourceResult` the source document. -/
inductive Result
  | HitResult (hit : SearchHit)
  | FieldResult (fields : List (String × String))
  | SourceResult (source : String)
deriving DecidableEq, Repr

/-- Outcome of `extractResult`: a Result, an error, or a runtime crash
(nil-pointer dereference). -/
inductive ExtractOutcome
  | ok (r : Result)
  | err (msg : String)
  | crash
deriving DecidableEq, Repr

/-- The final guard of extractResult, lines 569-572:
`if hit == nil || hit.Source == nil` yields the nil-document error,
otherwise the source document is wrapped. -/
def extractGuard (hit : Option SearchHit) : ExtractOutcome :=
  match hit with
  | none => ExtractOutcome.err "nil document returned"
  | some h =>
    match h.Source with
    | none => ExtractOutcome.err "nil document returned"
    | some src => ExtractOutcome.ok (Result.SourceResult src)

/-- extractResult, lines 562-573.  The argument is a `*elastic.SearchHit`;
`none` stands for a nil pointer.  `spec.RawResult` dereferences the hit
(`HitResult(*hit)`), and the conjunction
`len(spec.Fields) != 0 && len(hit.Fields) != 0` evaluates `hit.Fields`
only when `spec.Fields` is non-empty (Go `&&` short-circuits), so the
nil dereferences are reproduced exactly where the Go code performs them. -/
def extractResult (hit : Option SearchHit) (spec : SearchOptions) : ExtractOutcome :=
  if spec.RawResult then
    match hit with
    | none => ExtractOutcome.crash
    | some h => ExtractOutcome.ok (Result.HitResult h)
  else if spec.Fields.length ≠ 0 then
    match hit with
    | none => ExtractOutcome.crash
    | some h =>
      if h.Fields.length ≠ 0 then ExtractOutcome.ok (Result.FieldResult h.Fields)
      else extractGuard hit
  else extractGuard hit

/-- ErrEmptySearch, line 433. -/
def ErrEmptySearch : String := "Empty search query, not submitting."

/-- ErrZeroSize, line 435. -/
def ErrZeroSize : String := "Search was for a 0 size, not executing."

/-- The external environment: the JSON decoder behind `QueryMapFromJSON`
(Go stdlib, outside src/), the engine-side validation behind `l.validate`
(outside src/, spec section 4.3), and the engine-side execution of a
submitted request.  Entry points are functions of this environment. -/
structure Env where
  parseJSON : String → Except String QueryMap
  validateQuery : Query → SearchOptions → Except String Unit
  executeSearch : SearchService → Query → Except String (List (Option SearchHit))

/-- A network request issued to the engine: a validation dry-run or the
execution of a search request. -/
inductive NetCall
  | validateReq (query : Query)
  | executeReq (search : SearchService) (query : Query)
deriving DecidableEq, Repr

/-- Outcome of running an entry point: a value, a returned Go error, or a
process abort (`log.Fatalf` or a runtime panic). -/
inductive RunResult (α : Type)
  | ok (a : α)
  | err (e : String)
  | abort
deriving DecidableEq, Repr

/-- State of a SearchStream (stream.go, outside src/).  Modelled from the
spec state machine, section 4.4: `built` holds the request not yet issued
(execution is triggered by the first pull or the drain); `executing` holds
the hits not yet delivered; `exhausted` and `failed` are terminal. -/
inductive StreamState
  | built (search : SearchService) (query : Query)
  | executing (pending : List (Option SearchHit))
  | exhausted
  | failed
deriving DecidableEq, Repr

/-- Modelled from the spec: a SearchStream (stream.go, outside src/) is a
single-pass handle bound to one request, extracting each hit with the
options it was created with. -/
structure SearchStream where
  state : StreamState
  spec : SearchOptions
deriving DecidableEq, Repr

/-- The query document a not-yet-executed stream is bound to. -/
def SearchStream.queryOf (s : SearchStream) : Option Query :=
  match s.state with
  | StreamState.built _ q => some q
  | _ => none

/-- Modelled from the spec: `l.execute` (outside src/) builds the stream
in the `built` state bound to the request; per section 4.4 the engine
request is issued on the first pull or the drain, so constructing the
stream issues no network call. -/
def execute (search : SearchService) (query : Query) (spec : SearchOptions) :
    List NetCall × RunResult SearchStream :=
  ([], RunResult.ok ⟨StreamState.built search query, spec⟩)

/-- Tail of SimpleSearchStream after the spec checks, lines 472-491:
configureSearch, optional validation against the search source (which
carries the lucene query), then execute.  The `QueryDebug` print is a
side effect on stderr only and is not modelled. -/
def simpleStreamRest (env : Env) (search : SearchService) (q : String) (spec : SearchOptions) :
    List NetCall × RunResult SearchStream :=
  let search := spec.configureSearch search
  let source := Query.lucene q
  if spec.QuerySkipValidate then execute search source spec
  else
    match env.validateQuery source spec with
    | Except.error e => ([NetCall.validateReq source], RunResult.err e)
    | Except.ok _ =>
      let r := execute search source spec
      (NetCall.validateReq source :: r.1, r.2)

/-- SimpleSearchStream, lines 456-492: empty-query check, lucene query
construction, zero-size check only for a caller-supplied spec, defaulting
to DefaultSpec for a nil spec, then validation and execution. -/
def SimpleSearchStream (env : Env) (q : String) (spec0 : Option SearchOptions) :
    List NetCall × RunResult SearchStream :=
  if q = "" then ([], RunResult.err ErrEmptySearch)
  else
    let search := SearchWithLucene NewSearch q
    match spec0 with
    | some spec =>
      if spec.Size = 0 then ([], RunResult.err ErrZeroSize)
      else simpleStreamRest env search q spec
    | none => simpleStreamRest env search q DefaultSpec

/-- The raw input accepted by SearchWithSourceStream, line 514: the Go
switch dispatches on `json.RawMessage`, `[]byte`, `map[string]interface`,
`QueryMap`, with `log.Fatalf` on any other dynamic type. -/
inductive RawInput
  | rawMessage (data : String)
  | bytes (data : String)
  | mapInput (m : QueryMap)
  | queryMapInput (m : QueryMap)
  | unsupported
deriving DecidableEq, Repr

/-- The switch of SearchWithSourceStream, lines 513-526, producing the
pair `(query, err)` exactly as the Go code leaves it: on a JSON parse
failure `QueryMapFromJSON` returns its zero-value map together with the
error, which the caller assigns to `err` and never checks.  `none` is the
`log.Fatalf` default branch. -/
def rawQuerySwitch (env : Env) (raw : RawInput) : Option (Query × Option String) :=
  match raw with
  | RawInput.rawMessage d =>
    match env.parseJSON d with
    | Except.ok m => some (Query.queryMap m, none)
    | Except.error e => some (Query.queryMap QueryMap.zero, some e)
  | RawInput.bytes d =>
    match env.parseJSON d with
    | Except.ok m => some (Query.queryMap m, none)
    | Except.error e => some (Query.queryMap QueryMap.zero, some e)
  | RawInput.mapInput m => some (Query.queryMap m, none)
  | RawInput.queryMapInput m => some (Query.queryMap m, none)
  | RawInput.unsupported => none

/-- Tail of SearchWithSourceStream after the switch, lines 527-545: the
raw query document is installed as the search source, then optional
validation (whose error shadows, and is returned instead of, any parse
error) and execution. -/
def sourceStreamRest (env : Env) (spec : SearchOptions) (search : SearchService) (query : Query) :
    List NetCall × RunResult SearchStream :=
  let search := { search with query := some query }
  if spec.QuerySkipValidate then execute search query spec
  else
    match env.validateQuery query spec with
    | Except.error e => ([NetCall.validateReq query], RunResult.err e)
    | Except.ok _ =>
      let r := execute search query spec
      (NetCall.validateReq query :: r.1, r.2)

/-- SearchWithSourceStream, lines 506-546.  Note: there is no zero-size
check in this entry point, and the parse error produced by the switch is
dropped on the floor (the second component of `rawQuerySwitch` is never
read), both faithful to the source. -/
def SearchWithSourceStream (env : Env) (raw : RawInput) (spec0 : Option SearchOptions) :
    List NetCall × RunResult SearchStream :=
  let spec := spec0.getD DefaultSpec
  let search := spec.configureSearch NewSearch
  match rawQuerySwitch env raw with
  | none => ([], RunResult.abort)
  | some (query, _discardedErr) => sourceStreamRest env spec search query

/-- One pull from the pending hit list: extract the head hit, the stream
stays executing on success, goes to `failed` on an extraction error or a
crash, and reaches `exhausted` when no hit remains. -/
def stepPending (spec : SearchOptions) :
    List (Option SearchHit) → Option (RunResult Result) × StreamState
  | [] => (none, StreamState.exhausted)
  | h :: t =>
    match extractResult h spec with
    | ExtractOutcome.ok r => (some (RunResult.ok r), StreamState.executing t)
    | ExtractOutcome.err e => (some (RunResult.err e), StreamState.failed)
    | ExtractOutcome.crash => (some RunResult.abort, StreamState.failed)

/-- Modelled from the spec: the incremental pull of a SearchStream
(stream.go, outside src/).  The first pull of a `built` stream issues the
request to the engine; a transport or execution error moves the stream to
`failed`; terminal states yield nothing. -/
def SearchStream.next (env : Env) (s : SearchStream) :
    List NetCall × Option (RunResult Result) × SearchStream :=
  match s.state with
  | StreamState.built search query =>
    match env.executeSearch search query with
    | Except.error e =>
      ([NetCall.executeReq search query], some (RunResult.err e), ⟨StreamState.failed, s.spec⟩)
    | Except.ok hits =>
      let p := stepPending s.spec hits
      ([NetCall.executeReq search query], p.1, ⟨p.2, s.spec⟩)
  | StreamState.executing pending =>
    let p := stepPending s.spec pending
    ([], p.1, ⟨p.2, s.spec⟩)
  | StreamState.exhausted => ([], none, s)
  | StreamState.failed => ([], none, s)

/-- Drain a stream by repeated pulls through `SearchStream.next`,
accumulating the yielded results in order and stopping at the first
error.  `fuel` bounds the number of pulls; with fuel at least
`streamFuel` the bound is never hit. -/
def drainLoop (env : Env) : Nat → SearchStream → List NetCall × RunResult (List Result)
  | 0, _ => ([], RunResult.ok [])
  | fuel + 1, s =>
    match SearchStream.next env s with
    | (calls, none, _) => (calls, RunResult.ok [])
    | (calls, some (RunResult.ok r), s') =>
      let rest := drainLoop env fuel s'
      (calls ++ rest.1,
        match rest.2 with
        | RunResult.ok rs => RunResult.ok (r :: rs)
        | other => other)
    | (calls, some (RunResult.err e), _) => (calls, RunResult.err e)
    | (calls, some RunResult.abort, _) => (calls, RunResult.abort)

/-- Number of pulls sufficient to drain the stream. -/
def streamFuel (env : Env) (s : SearchStream) : Nat :=
  match s.state with
  | StreamState.built search query =>
    match env.executeSearch search query with
    | Except.ok hits => hits.length + 1
    | Except.error _ => 1
  | StreamState.executing pending => pending.length + 1
  | StreamState.exhausted => 1
  | StreamState.failed => 1

/-- Modelled from the spec: `SearchStream.All` (stream.go, outside src/)
drains the stream into an ordered collection purely atop the incremental
interface, preserving yield order. -/
def SearchStream.All (env : Env) (s : SearchStream) : List NetCall × RunResult (List Result) :=
  drainLoop env (streamFuel env s) s

/-- SimpleSearch (streaming version), lines 496-502: build the stream,
propagate its error, otherwise drain it with `All`. -/
def SimpleSearch (env : Env) (q : String) (spec0 : Option SearchOptions) :
    List NetCall × RunResult (List Result) :=
  match SimpleSearchStream env q spec0 with
  | (calls, RunResult.err e) => (calls, RunResult.err e)
  | (calls, RunResult.abort) => (calls, RunResult.abort)
  | (calls, RunResult.ok stream) =>
    let r := SearchStream.All env stream
    (calls ++ r.1, r.2)

/-- SearchWithSource (streaming version), lines 553-559: build the stream,
propagate its error, otherwise drain it with `All`. -/
def SearchWithSource (env : Env) (raw : RawInput) (spec0 : Option SearchOptions) :
    List NetCall × RunResult (List Result) :=
  match SearchWithSourceStream env raw spec0 with
  | (calls, RunResult.err e) => (calls, RunResult.err e)
  | (calls, RunResult.abort) => (calls, RunResult.abort)
  | (calls, RunResult.ok stream) =>
    let r := SearchStream.All env stream
    (calls ++ r.1, r.2)

/-- Return shape of the direct-execution (earlier) entry points: the Go
pair `(docs, err)`, or a process abort on a runtime panic. -/
inductive DirectRet
  | ret (docs : List (Option String)) (err : Option String)
  | abort
deriving DecidableEq, Repr

namespace Direct

/-- The hit loop of the direct SimpleSearch, lines 352-354: it reads
`doc.Source` from every hit pointer, so a nil hit in the slice is a
nil dereference (`none`). -/
def collectSources : List (Option SearchHit) → Option (List (Option String))
  | [] => some []
  | none :: _ => none
  | some h :: t => (collectSources t).map (fun ds => h.Source :: ds)

/-- Tail of the direct SimpleSearch, lines 341-355: apply the options,
run `search.Do()` (one execution request), annotate an engine error, and
collect the source documents of the hits. -/
def run (env : Env) (search : SearchService) (q : String) (spec : SearchOptions) :
    List NetCall × DirectRet :=
  let search := spec.apply search
  let source := Query.lucene q
  ([NetCall.executeReq search source],
    match env.executeSearch search source with
    | Except.error e => DirectRet.ret [] (some ("Search returned with error: " ++ e))
    | Except.ok hits =>
      match collectSources hits with
      | some docs => DirectRet.ret docs none
      | none => DirectRet.abort)

/-- SimpleSearch (direct-execution version), lines 325-356: the empty
query returns `ErrEmptySearch`; a caller-supplied spec with `Size == 0`
returns the empty document list with a nil error before any network call;
a nil spec falls back to DefaultSpec; otherwise the search executes
immediately. -/
def SimpleSearch (env : Env) (q : String) (spec0 : Option SearchOptions) :
    List NetCall × DirectRet :=
  if q = "" then ([], DirectRet.ret [] (some ErrEmptySearch))
  else
    let search := SearchWithLucene NewSearch q
    match spec0 with
    | some spec =>
      if spec.Size = 0 then ([], DirectRet.ret [] none)
      else run env search q spec
    | none => run env search q DefaultSpec

end Direct

/-- Direct (non-incremental) extraction of a pending hit list, in order,
stopping at the first extraction error (the ordered sequence the stream
yields, mirroring consumeResults at lines 577-586). -/
def drainPending (spec : SearchOptions) : List (Option SearchHit) → RunResult (List Result)
  | [] => RunResult.ok []
  | h :: t =>
    match extractResult h spec with
    | ExtractOutcome.ok r =>
      match drainPending spec t with
      | RunResult.ok rs => RunResult.ok (r :: rs)
      | other => other
    | ExtractOutcome.err e => RunResult.err e
    | ExtractOutcome.crash => RunResult.abort

/-- Closed form of draining a stream from each state: a built stream
issues exactly one execution request and yields the extracted hits in
order. -/
def canonDrain (env : Env) (s : SearchStream) : List NetCall × RunResult (List Result) :=
  match s.state with
  | StreamState.built search query =>
    ([NetCall.executeReq search query],
      match env.executeSearch search query with
      | Except.error e => RunResult.err e
      | Except.ok hits => drainPending s.spec hits)
  | StreamState.executing pending => ([], drainPending s.spec pending)
  | StreamState.exhausted => ([], RunResult.ok [])
  | StreamState.failed => ([], RunResult.ok [])

/-- Composition of a stream-building entry point with the drain `All`,
propagating a build error unchanged: the collection interface the spec
describes. -/
def bindStream (env : Env) (r : List NetCall × RunResult SearchStream) :
    List NetCall × RunResult (List Result) :=
  match r with
  | (calls, RunResult.ok st) =>
    let d := SearchStream.All env st
    (calls ++ d.1, d.2)
  | (calls, RunResult.err e) => (calls, RunResult.err e)
  | (calls, RunResult.abort) => (calls, RunResult.abort)

/-- Concrete benign environment: every JSON input parses to the empty
query map, validation always succeeds, execution returns no hits. -/
def env0 : Env :=
  ⟨fun _ => Except.ok QueryMap.zero, fun _ _ => Except.ok (), fun _ _ => Except.ok []⟩

/-- Concrete environment whose JSON decoder rejects every input, as the
Go decoder does on a syntactically invalid document. -/
def envParseFail : Env :=
  ⟨fun _ => Except.error "unexpected end of JSON input", fun _ _ => Except.ok (),
    fun _ _ => Except.ok []⟩

/-- Concrete environment whose engine-side validation rejects every
query. -/
def envValFail : Env :=
  ⟨fun _ => Except.ok QueryMap.zero, fun _ _ => Except.error "validation failed",
    fun _ _ => Except.ok []⟩

/-- Concrete environment whose execution returns two source-only hits. -/
def envHits : Env :=
  ⟨fun _ => Except.ok QueryMap.zero, fun _ _ => Except.ok (),
    fun _ _ => Except.ok [some ⟨[], some "doc1"⟩, some ⟨[], some "doc2"⟩]⟩

/-! ## Theorems -/

/-- C3: for every hit and every SearchOptions with RawResult set, the
extractor returns a RawResult wrapping the entire hit envelope, regardless
of whether the hit carries a field projection or a source document. -/
theorem c3_raw_result_precedence (h : SearchHit) (spec : SearchOptions)
    (hraw : spec.RawResult = true) :
    extractResult (some h) spec = ExtractOutcome.ok (Result.HitResult h) := by
  simp [extractResult, hraw]

/-- Witness for C3 at a hit that carries both a field projection and a
source document, with Fields also set in the options. -/
theorem c3_raw_result_precedence_witness :
    ({ RawResult := true, Fields := ["f"] } : SearchOptions).RawResult = true ∧
    extractResult (some ⟨[("f", "v")], some "src"⟩) { RawResult := true, Fields := ["f"] } =
      ExtractOutcome.ok (Result.HitResult ⟨[("f", "v")], some "src"⟩) :=
  ⟨rfl, c3_raw_result_precedence ⟨[("f", "v")], some "src"⟩ { RawResult := true, Fields := ["f"] } rfl⟩

/-- C4: for every hit and every SearchOptions with RawResult false: if
options.Fields is non-empty and the hit's field projection is non-empty
the extractor returns FieldResult; if either condition fails it returns
SourceResult when the hit carries a source document, and an error when no
source document exists either. -/
theorem c4_field_source_fallthrough (h : SearchHit) (spec : SearchOptions)
    (hraw : spec.RawResult = false) :
    (spec.Fields ≠ [] → h.Fields ≠ [] →
      extractResult (some h) spec = ExtractOutcome.ok (Result.FieldResult h.Fields)) ∧
    ((spec.Fields = [] ∨ h.Fields = []) →
      (∀ src, h.Source = some src →
        extractResult (some h) spec = ExtractOutcome.ok (Result.SourceResult src)) ∧
      (h.Source = none →
        extractResult (some h) spec = ExtractOutcome.err "nil document returned")) := by
  constructor
  · intro hsf hhf
    simp [extractResult, hraw, List.length_eq_zero, hsf, hhf]
  · intro hcase
    constructor
    · intro src hsrc
      rcases hcase with hc | hc <;>
        simp [extractResult, hraw, extractGuard, List.length_eq_zero, hc, hsrc]
    · intro hsrc
      rcases hcase with hc | hc <;>
        simp [extractResult, hraw, extractGuard, List.length_eq_zero, hc, hsrc]

/-- Witness for C4: a hit with a field projection and a source, options
with Fields set, yields FieldResult; the same hit with empty Fields in
the options yields SourceResult; a hit with neither projection nor source
yields the error. -/
theorem c4_field_source_fallthrough_witness :
    extractResult (some ⟨[("f", "v")], some "src"⟩) { Fields := ["f"] } =
      ExtractOutcome.ok (Result.FieldResult [("f", "v")]) ∧
    extractResult (some ⟨[("f", "v")], some "src"⟩) { } =
      ExtractOutcome.ok (Result.SourceResult "src") ∧
    extractResult (some ⟨[], none⟩) { } =
      ExtractOutcome.err "nil document returned" := by
  refine ⟨?_, ?_, ?_⟩
  · exact (c4_field_source_fallthrough ⟨[("f", "v")], some "src"⟩ { Fields := ["f"] } rfl).1
      (by decide) (by decide)
  · exact ((c4_field_source_fallthrough ⟨[("f", "v")], some "src"⟩ { } rfl).2
      (Or.inl rfl)).1 "src" rfl
  · exact ((c4_field_source_fallthrough ⟨[], none⟩ { } rfl).2 (Or.inl rfl)).2 rfl

/-- C8: apply sets size, then index selection, then sort direction, in
that order, each only when the corresponding field is set (Size nonzero;
non-empty Index string; non-empty Indices list, both index settings
applied when both are set; non-nil SortTime), and apply itself raises no
error and touches nothing but the ops trace. -/
theorem c8_apply_order (s : SearchOptions) (search : SearchService) :
    s.apply search =
      { search with ops := search.ops ++
          ((if s.Size ≠ 0 then [SearchOp.size s.Size] else []) ++
           (if s.Index ≠ "" then [SearchOp.index [s.Index]] else []) ++
           (if s.Indices.length ≠ 0 then [SearchOp.index s.Indices] else []) ++
           (match s.SortTime with
            | some d => [SearchOp.sortTime d]
            | none => [])) } := by
  unfold SearchOptions.apply
  cases s.SortTime <;> split_ifs <;> simp_all [List.append_assoc]

/-- C10 counterexample: with RawResult false and an empty Fields list, a
nil hit does not crash; the nil-pointer half of the guard is reached and
the nil-document error is returned. -/
theorem c10_counterexample :
    extractResult none ({ } : SearchOptions) ≠ ExtractOutcome.crash ∧
    extractResult none ({ } : SearchOptions) = ExtractOutcome.err "nil document returned" := by
  constructor
  · decide
  · rfl

/-- C10 amended: a nil hit makes extractResult crash exactly when
RawResult is set or options.Fields is non-empty (Go's short-circuiting
skips the hit dereference otherwise); with RawResult false and empty
Fields the nil-hit guard is reached and returns the nil-document
error, so that half of the guard is reachable. -/
theorem c10_nil_hit_amended (spec : SearchOptions) :
    extractResult none spec =
      if spec.RawResult = true ∨ spec.Fields ≠ [] then ExtractOutcome.crash
      else ExtractOutcome.err "nil document returned" := by
  by_cases hr : spec.RawResult = true
  · simp [extractResult, hr]
  · by_cases hf : spec.Fields = []
    · simp [extractResult, extractGuard, hr, hf]
    · simp [extractResult, hr, List.length_eq_zero, hf]

/-- Draining an executing stream by repeated pulls yields the in-order
extraction of the pending hits, with no further network traffic, for any
sufficient fuel. -/
theorem drainLoop_executing (env : Env) (spec : SearchOptions) :
    ∀ (pending : List (Option SearchHit)) (fuel : Nat), pending.length < fuel →
      drainLoop env fuel ⟨StreamState.executing pending, spec⟩ = ([], drainPending spec pending) := by
  intro pending
  induction pending with
  | nil =>
    intro fuel hf
    match fuel, hf with
    | f + 1, _ =>
      simp [drainLoop, SearchStream.next, stepPending, drainPending]
  | cons h t ih =>
    intro fuel hf
    match fuel, hf with
    | f + 1, hf =>
      have ht : t.length < f := by simpa using Nat.lt_of_succ_lt_succ hf
      cases hE : extractResult h spec with
      | ok r =>
        simp [drainLoop, SearchStream.next, stepPending, hE, ih f ht, drainPending]
      | err e =>
        simp [drainLoop, SearchStream.next, stepPending, hE, drainPending]
      | crash =>
        simp [drainLoop, SearchStream.next, stepPending, hE, drainPending]

/-- With sufficient fuel, the pull-based drain reaches the closed form
`canonDrain`, independently of the exact fuel. -/
theorem drainLoop_canon (env : Env) (s : SearchStream) (fuel : Nat)
    (hf : streamFuel env s ≤ fuel) :
    drainLoop env fuel s = canonDrain env s := by
  obtain ⟨state, spec⟩ := s
  cases state with
  | built search query =>
    cases hE : env.executeSearch search query with
    | error e =>
      have h1 : 1 ≤ fuel := by simpa [streamFuel, hE] using hf
      match fuel, h1 with
      | f + 1, _ =>
        simp [drainLoop, SearchStream.next, hE, canonDrain]
    | ok hits =>
      have h1 : hits.length + 1 ≤ fuel := by simpa [streamFuel, hE] using hf
      match fuel, h1 with
      | f + 1, h1 =>
        have hlen : hits.length ≤ f := Nat.le_of_succ_le_succ h1
        cases hits with
        | nil => simp [drainLoop, SearchStream.next, hE, stepPending, canonDrain, drainPending]
        | cons h0 t =>
          have ht : t.length < f := by
            have := hlen
            simpa [Nat.lt_iff_add_one_le] using this
          cases hX : extractResult h0 spec with
          | ok r =>
            simp [drainLoop, SearchStream.next, hE, stepPending, hX, canonDrain, drainPending,
              drainLoop_executing env spec t f ht]
          | err e =>
            simp [drainLoop, SearchStream.next, hE, stepPending, hX, canonDrain, drainPending]
          | crash =>
            simp [drainLoop, SearchStream.next, hE, stepPending, hX, canonDrain, drainPending]
  | executing pending =>
    have h1 : pending.length < fuel := by
      simpa [streamFuel, Nat.lt_iff_add_one_le] using hf
    simpa [canonDrain] using drainLoop_executing env spec pending fuel h1
  | exhausted =>
    have h1 : 1 ≤ fuel := by simpa [streamFuel] using hf
    match fuel, h1 with
    | f + 1, _ => simp [drainLoop, SearchStream.next, canonDrain]
  | failed =>
    have h1 : 1 ≤ fuel := by simpa [streamFuel] using hf
    match fuel, h1 with
    | f + 1, _ => simp [drainLoop, SearchStream.next, canonDrain]

/-- C7: the collection-returning entry points equal the drain of their
stream counterparts — SimpleSearch is exactly SimpleSearchStream followed
by All, SearchWithSource is exactly SearchWithSourceStream followed by
All, with identical call traces, identical result order and the same
propagated error; and All itself equals the pull-by-pull drain of the
incremental interface, for any sufficient number of pulls. -/
theorem c7_all_drains_stream :
    (∀ (env : Env) (q : String) (spec0 : Option SearchOptions),
       SimpleSearch env q spec0 = bindStream env (SimpleSearchStream env q spec0)) ∧
    (∀ (env : Env) (raw : RawInput) (spec0 : Option SearchOptions),
       SearchWithSource env raw spec0 = bindStream env (SearchWithSourceStream env raw spec0)) ∧
    (∀ (env : Env) (s : SearchStream) (fuel : Nat), streamFuel env s ≤ fuel →
       SearchStream.All env s = drainLoop env fuel s) := by
  refine ⟨?_, ?_, ?_⟩
  · intro env q spec0
    unfold SimpleSearch bindStream
    rcases hs : SimpleSearchStream env q spec0 with ⟨calls, r⟩
    cases r <;> simp
  · intro env raw spec0
    unfold SearchWithSource bindStream
    rcases hs : SearchWithSourceStream env raw spec0 with ⟨calls, r⟩
    cases r <;> simp
  · intro env s fuel hf
    unfold SearchStream.All
    rw [drainLoop_canon env s fuel hf, drainLoop_canon env s (streamFuel env s) (Nat.le_refl _)]

/-- Witness for C7: in an environment returning two hits, the nil-spec
SimpleSearch equals the drained stream, and All on an executing stream
equals the pull-based drain with surplus fuel. -/
theorem c7_all_drains_stream_witness :
    SimpleSearch envHits "error" none = bindStream envHits (SimpleSearchStream envHits "error" none) ∧
    SearchStream.All envHits ⟨StreamState.executing [some ⟨[], some "doc1"⟩], DefaultSpec⟩ =
      drainLoop envHits 5 ⟨StreamState.executing [some ⟨[], some "doc1"⟩], DefaultSpec⟩ :=
  ⟨c7_all_drains_stream.1 envHits "error" none,
    c7_all_drains_stream.2.2 envHits ⟨StreamState.executing [some ⟨[], some "doc1"⟩], DefaultSpec⟩ 5
      (by decide)⟩

/-- C1 counterexample: SearchWithSourceStream called with Size zero (and
validation not skipped) does not return the zero-size error, and it does
issue a network request to the engine. -/
theorem c1_counterexample :
    (SearchWithSourceStream env0 (RawInput.queryMapInput QueryMap.zero)
        (some { Size := 0 })).2 ≠ RunResult.err ErrZeroSize ∧
    (SearchWithSourceStream env0 (RawInput.queryMapInput QueryMap.zero)
        (some { Size := 0 })).1 ≠ [] := by
  constructor <;> decide

/-- C1 amended: with Size zero, SimpleSearchStream returns ErrZeroSize
with no network call; the direct-execution SimpleSearch returns an empty
document list with a nil error and no network call; SearchWithSourceStream
performs no zero-size check at all — it issues the validation request and,
if validation succeeds, returns a live stream bound to the request. -/
theorem c1_zero_size_amended :
    (∀ (env : Env) (q : String) (spec : SearchOptions), q ≠ "" → spec.Size = 0 →
      SimpleSearchStream env q (some spec) = ([], RunResult.err ErrZeroSize)) ∧
    (∀ (env : Env) (q : String) (spec : SearchOptions), q ≠ "" → spec.Size = 0 →
      Direct.SimpleSearch env q (some spec) = ([], DirectRet.ret [] none)) ∧
    (∀ (env : Env) (m : QueryMap) (spec : SearchOptions), spec.Size = 0 →
      spec.QuerySkipValidate = false →
      SearchWithSourceStream env (RawInput.queryMapInput m) (some spec) =
        ([NetCall.validateReq (Query.queryMap m)],
          match env.validateQuery (Query.queryMap m) spec with
          | Except.error e => RunResult.err e
          | Except.ok _ =>
            RunResult.ok ⟨StreamState.built
              { spec.configureSearch NewSearch with query := some (Query.queryMap m) }
              (Query.queryMap m), spec⟩)) := by
  refine ⟨?_, ?_, ?_⟩
  · intro env q spec hq hz
    simp [SimpleSearchStream, hq, hz]
  · intro env q spec hq hz
    simp [Direct.SimpleSearch, hq, hz]
  · intro env m spec _hz hskip
    unfold SearchWithSourceStream rawQuerySwitch sourceStreamRest execute
    cases hv : env.validateQuery (Query.queryMap m) spec <;> simp [hskip, hv]

/-- Witness for C1 amended at concrete inputs: the three behaviors at
Size zero, with the benign environment. -/
theorem c1_zero_size_amended_witness :
    SimpleSearchStream env0 "x" (some { Size := 0 }) = ([], RunResult.err ErrZeroSize) ∧
    Direct.SimpleSearch env0 "x" (some { Size := 0 }) = ([], DirectRet.ret [] none) ∧
    SearchWithSourceStream env0 (RawInput.queryMapInput QueryMap.zero) (some { Size := 0 }) =
      ([NetCall.validateReq (Query.queryMap QueryMap.zero)],
        RunResult.ok ⟨StreamState.built
          { ops := [], query := some (Query.queryMap QueryMap.zero) }
          (Query.queryMap QueryMap.zero), { Size := 0 }⟩) := by
  refine ⟨c1_zero_size_amended.1 env0 "x" { Size := 0 } (by decide) rfl,
    c1_zero_size_amended.2.1 env0 "x" { Size := 0 } (by decide) rfl, ?_⟩
  have h := c1_zero_size_amended.2.2 env0 QueryMap.zero { Size := 0 } rfl rfl
  simpa [env0, SearchOptions.configureSearch, SearchOptions.apply, NewSearch] using h

/-- C2: with a syntactically invalid raw JSON query and validation not
skipped, SearchWithSourceStream swallows the JSON parse error — the
decoder rejects the input, yet the call validates the zero-value query
document, returns a live stream bound to it with no error, and the parse
error never reaches the caller. -/
theorem c2_parse_error_swallowed :
    envParseFail.parseJSON "not json" = Except.error "unexpected end of JSON input" ∧
    SearchWithSourceStream envParseFail (RawInput.bytes "not json") (some { Size := 100 }) =
      ([NetCall.validateReq (Query.queryMap QueryMap.zero)],
        RunResult.ok ⟨StreamState.built
          { ops := [SearchOp.size 100], query := some (Query.queryMap QueryMap.zero) }
          (Query.queryMap QueryMap.zero), { Size := 100 }⟩) :=
  ⟨rfl, rfl⟩

/-- C5: when validation is not skipped and the engine-side validation
fails, both stream entry points return exactly that error after the single
validation request, with no execution request; when QuerySkipValidate is
set, no validation request is ever issued and the stream is built
directly. -/
theorem c5_validation_short_circuit :
    (∀ (env : Env) (q : String) (spec : SearchOptions) (e : String), q ≠ "" → spec.Size ≠ 0 →
      spec.QuerySkipValidate = false →
      env.validateQuery (Query.lucene q) spec = Except.error e →
      SimpleSearchStream env q (some spec) =
        ([NetCall.validateReq (Query.lucene q)], RunResult.err e)) ∧
    (∀ (env : Env) (m : QueryMap) (spec : SearchOptions) (e : String),
      spec.QuerySkipValidate = false →
      env.validateQuery (Query.queryMap m) spec = Except.error e →
      SearchWithSourceStream env (RawInput.queryMapInput m) (some spec) =
        ([NetCall.validateReq (Query.queryMap m)], RunResult.err e)) ∧
    (∀ (env : Env) (q : String) (spec : SearchOptions), q ≠ "" → spec.Size ≠ 0 →
      spec.QuerySkipValidate = true →
      SimpleSearchStream env q (some spec) =
        ([], RunResult.ok ⟨StreamState.built
          (spec.configureSearch (SearchWithLucene NewSearch q)) (Query.lucene q), spec⟩)) ∧
    (∀ (env : Env) (m : QueryMap) (spec : SearchOptions),
      spec.QuerySkipValidate = true →
      SearchWithSourceStream env (RawInput.queryMapInput m) (some spec) =
        ([], RunResult.ok ⟨StreamState.built
          { spec.configureSearch NewSearch with query := some (Query.queryMap m) }
          (Query.queryMap m), spec⟩)) := by
  refine ⟨?_, ?_, ?_, ?_⟩
  · intro env q spec e hq hz hskip hv
    simp [SimpleSearchStream, simpleStreamRest, hq, hz, hskip, hv]
  · intro env m spec e hskip hv
    simp [SearchWithSourceStream, rawQuerySwitch, sourceStreamRest, hskip, hv]
  · intro env q spec hq hz hskip
    simp [SimpleSearchStream, simpleStreamRest, execute, hq, hz, hskip]
  · intro env m spec hskip
    simp [SearchWithSourceStream, rawQuerySwitch, sourceStreamRest, execute, hskip]

/-- Witness for C5: a failing validator short-circuits both stream entry
points, and a skipping spec issues no validation request. -/
theorem c5_validation_short_circuit_witness :
    SimpleSearchStream envValFail "x" (some { Size := 5 }) =
      ([NetCall.validateReq (Query.lucene "x")], RunResult.err "validation failed") ∧
    SearchWithSourceStream envValFail (RawInput.queryMapInput QueryMap.zero)
        (some { Size := 5 }) =
      ([NetCall.validateReq (Query.queryMap QueryMap.zero)], RunResult.err "validation failed") ∧
    (SimpleSearchStream envValFail "x" (some { Size := 5, QuerySkipValidate := true })).1 = [] := by
  refine ⟨c5_validation_short_circuit.1 envValFail "x" { Size := 5 } "validation failed"
      (by decide) (by decide) rfl rfl,
    c5_validation_short_circuit.2.1 envValFail QueryMap.zero { Size := 5 } "validation failed"
      rfl rfl, ?_⟩
  have h := c5_validation_short_circuit.2.2.1 envValFail "x"
    { Size := 5, QuerySkipValidate := true } (by decide) (by decide) rfl
  rw [h]

/-- The stream produced by a non-empty simple search is always bound to
the caller's lucene expression, whatever the options. -/
theorem simpleStreamRest_query (env : Env) (search : SearchService) (q : String)
    (spec : SearchOptions) (st : SearchStream)
    (h : (simpleStreamRest env search q spec).2 = RunResult.ok st) :
    st.queryOf = some (Query.lucene q) := by
  unfold simpleStreamRest execute at h
  by_cases hs : spec.QuerySkipValidate
  · simp [hs] at h
    subst h
    rfl
  · simp [hs] at h
    cases hv : env.validateQuery (Query.lucene q) spec with
    | error e => simp [hv] at h
    | ok _ =>
      simp [hv] at h
      subst h
      rfl

/-- C6: the empty free-text query always fails with ErrEmptySearch before
any network interaction, in both the streaming and the direct-execution
SimpleSearch; and for every non-empty free-text query, any stream the
streaming entry point returns is bound to exactly the caller's query as a
lucene expression — no default is ever substituted. -/
theorem c6_empty_query :
    (∀ (env : Env) (spec0 : Option SearchOptions),
      SimpleSearchStream env "" spec0 = ([], RunResult.err ErrEmptySearch)) ∧
    (∀ (env : Env) (spec0 : Option SearchOptions),
      Direct.SimpleSearch env "" spec0 = ([], DirectRet.ret [] (some ErrEmptySearch))) ∧
    (∀ (env : Env) (q : String) (spec0 : Option SearchOptions) (st : SearchStream), q ≠ "" →
      (SimpleSearchStream env q spec0).2 = RunResult.ok st →
      st.queryOf = some (Query.lucene q)) := by
  refine ⟨?_, ?_, ?_⟩
  · intro env spec0
    simp [SimpleSearchStream]
  · intro env spec0
    simp [Direct.SimpleSearch]
  · intro env q spec0 st hq hok
    cases spec0 with
    | none =>
      simp [SimpleSearchStream, hq] at hok
      exact simpleStreamRest_query env _ q DefaultSpec st hok
    | some spec =>
      by_cases hz : spec.Size = 0
      · simp [SimpleSearchStream, hq, hz] at hok
      · simp [SimpleSearchStream, hq, hz] at hok
        exact simpleStreamRest_query env _ q spec st hok

/-- Witness for C6: the empty query fails in both entry points, and the
stream built for the query "error" with a nil spec is bound to the lucene
expression "error". -/
theorem c6_empty_query_witness :
    SimpleSearchStream env0 "" none = ([], RunResult.err ErrEmptySearch) ∧
    Direct.SimpleSearch env0 "" none = ([], DirectRet.ret [] (some ErrEmptySearch)) ∧
    SearchStream.queryOf
      ⟨StreamState.built
        { ops := [SearchOp.size 100, SearchOp.sortTime SortDir.desc],
          query := some (Query.lucene "error") }
        (Query.lucene "error"), DefaultSpec⟩ = some (Query.lucene "error") := by
  refine ⟨c6_empty_query.1 env0 none, c6_empty_query.2.1 env0 none, ?_⟩
  exact c6_empty_query.2.2 env0 "error" none
    ⟨StreamState.built
      { ops := [SearchOp.size 100, SearchOp.sortTime SortDir.desc],
        query := some (Query.lucene "error") }
      (Query.lucene "error"), DefaultSpec⟩ (by decide) rfl

/-- C9: DefaultSpec is exactly Size 100 with descending time sort (all
other options at their zero values), every entry point called with a nil
spec behaves identically to the same call with DefaultSpec, and applying
DefaultSpec to a fresh request sets exactly size 100 and the descending
timestamp sort. -/
theorem c9_default_spec :
    DefaultSpec = (⟨100, "", [], some SortDir.desc, [], false, false, false⟩ : SearchOptions) ∧
    (∀ (env : Env) (q : String),
      SimpleSearchStream env q none = SimpleSearchStream env q (some DefaultSpec)) ∧
    (∀ (env : Env) (raw : RawInput),
      SearchWithSourceStream env raw none = SearchWithSourceStream env raw (some DefaultSpec)) ∧
    (∀ (env : Env) (q : String),
      SimpleSearch env q none = SimpleSearch env q (some DefaultSpec) ∧
      SearchWithSource env (RawInput.queryMapInput QueryMap.zero) none =
        SearchWithSource env (RawInput.queryMapInput QueryMap.zero) (some DefaultSpec)) ∧
    (DefaultSpec.apply NewSearch).ops = [SearchOp.size 100, SearchOp.sortTime SortDir.desc] := by
  have hstream : ∀ (env : Env) (q : String),
      SimpleSearchStream env q none = SimpleSearchStream env q (some DefaultSpec) := by
    intro env q
    by_cases hq : q = ""
    · simp [SimpleSearchStream, hq]
    · simp [SimpleSearchStream, hq, DefaultSpec, SortDesc]
  have hsource : ∀ (env : Env) (raw : RawInput),
      SearchWithSourceStream env raw none = SearchWithSourceStream env raw (some DefaultSpec) := by
    intro env raw
    rfl
  refine ⟨rfl, hstream, hsource, ?_, by decide⟩
  intro env q
  constructor
  · unfold SimpleSearch
    rw [hstream env q]
  · unfold SearchWithSource
    rw [hsource env (RawInput.queryMapInput QueryMap.zero)]

end Lgrep
